import Mathlib

/-!
Verification development for the sreworks/sreworker repository.

Shallow embedding of the durable-store repositories, the REST handlers for
conversations, the message normalizer, the incremental JSONL reader, the
process handler and the file-based conversation manager, translated from the
Python sources under `pyworker/` and `py-worker/`.  Timestamps are modelled
as natural numbers, the SQL store as an ordered list of rows, and the
filesystem / subprocess environment as explicit oracle parameters.
-/

namespace SreWorker

/-! ## Durable store data model

Mirrors `app/db/database_models/conversation.py` (`ConversationDO`) and
`app/db/database_models/message.py` (`MessageDO`).  `created_at` /
`last_activity` / `timestamp` are `datetime` columns, modelled as `Nat`;
`metadata` is a JSON map, modelled as an association list. -/

structure ConversationDO where
  id : String
  worker_id : String
  project_path : String
  name : String
  created_at : Nat
  last_activity : Nat
  is_current : Bool
  raw_conversation_id : Option String
  metadata : List (String × String)
deriving DecidableEq, Repr

structure MessageDO where
  conversation_id : String
  worker_id : String
  message_type : String
  uuid : String
  content : String
  timestamp : Nat
deriving DecidableEq, Repr

/-- A conversations-table state: the ordered list of rows. -/
abbrev ConversationStore := List ConversationDO

/-- A messages-table state: the ordered list of rows (insertion order). -/
abbrev MessageStore := List MessageDO

/-! ## ConversationRepository

Mirrors `app/db/repositories/conversation.py`.  The embedding keeps the
success path of each method; SQL errors (the `except` branches returning
`False`) are outside the model. -/

/-- Embeds `ConversationRepository.create`: a plain `INSERT` of the row; no other
row is touched. -/
def ConversationRepository.create (store : ConversationStore)
    (conversation : ConversationDO) : ConversationStore :=
  store ++ [conversation]

/-- Embeds `ConversationRepository.switch_current`: first
`UPDATE conversations SET is_current = FALSE WHERE worker_id = ?`, then
`UPDATE conversations SET is_current = TRUE, last_activity = ? WHERE id = ?
AND worker_id = ?`, as one committed transaction. -/
def ConversationRepository.switch_current (store : ConversationStore)
    (worker_id : String) (conversation_id : String) (now : Nat) :
    ConversationStore :=
  store.map (fun c =>
    if c.worker_id = worker_id ∧ c.id = conversation_id then
      { c with is_current := true, last_activity := now }
    else if c.worker_id = worker_id then
      { c with is_current := false }
    else c)

/-- Number of rows of the given worker whose `is_current` flag is set. -/
def currentCount (store : ConversationStore) (worker_id : String) : Nat :=
  (store.filter (fun c => c.worker_id = worker_id && c.is_current)).length

/-! ## MessageRepository

Mirrors `app/db/repositories/message.py`.  The schema
(`app/db/connection.py`) puts a unique index on `messages.uuid`; `add_batch`
inserts each row through `INSERT ... SELECT ... WHERE NOT EXISTS (SELECT 1
FROM messages WHERE uuid = ?)`, so a row is inserted only when no row with
that source uuid exists yet, and `added_count` is incremented on every
loop iteration that does not raise (the filtered insert does not raise). -/

def MessageRepository.add_batch (store : MessageStore)
    (messages : List MessageDO) : MessageStore × Nat :=
  match messages with
  | [] => (store, 0)
  | m :: rest =>
    let store' :=
      if store.any (fun r => r.uuid = m.uuid) then store else store ++ [m]
    let next := MessageRepository.add_batch store' rest
    (next.1, next.2 + 1)

/-- Rows of the message store carrying the given source uuid. -/
def rowsWithUuid (store : MessageStore) (u : String) : List MessageDO :=
  store.filter (fun r => r.uuid = u)

/-! ## REST handler `create_conversation`

Mirrors `app/api/v1/conversations.py` (`POST /api/v1/conversations`).  The
filesystem is an oracle `fs : String → PathState`; the worker table is the
list of known worker names. -/

inductive PathState
  | absent
  | file
  | dir
deriving DecidableEq, Repr

structure CreateConversationRequest where
  worker_name : String
  project_path : String
  name : String
deriving DecidableEq, Repr

/-- Result of a request handler: either a value (with its success status
code) or an `HTTPException` with a status code and detail string. -/
inductive ApiResult (A : Type)
  | ok (value : A)
  | err (status : Nat) (detail : String)
deriving DecidableEq, Repr

/-- Embeds `create_conversation`: validates `project_path` (must exist and be a
directory), looks up the worker, then inserts the new conversation with
`is_current = True` via `ConversationRepository.create`.  Returns the
handler result together with the conversations table afterwards. -/
def create_conversation (fs : String → PathState) (workers : List String)
    (newId : String) (now : Nat) (request : CreateConversationRequest)
    (store : ConversationStore) :
    ApiResult ConversationDO × ConversationStore :=
  if fs request.project_path = PathState.absent then
    (ApiResult.err 400 ("project_path does not exist: " ++ request.project_path),
     store)
  else if fs request.project_path ≠ PathState.dir then
    (ApiResult.err 400 ("project_path is not a directory: " ++ request.project_path),
     store)
  else if ¬ request.worker_name ∈ workers then
    (ApiResult.err 404 ("Worker not found: " ++ request.worker_name), store)
  else
    let conversation : ConversationDO :=
      { id := newId
        worker_id := request.worker_name
        project_path := request.project_path
        name := request.name
        created_at := now
        last_activity := now
        is_current := true
        raw_conversation_id := none
        metadata := [] }
    (ApiResult.ok conversation,
     ConversationRepository.create store conversation)

/-! ## File-based ConversationManager

Mirrors `app/services/conversation_manager.py`.  A conversation's JSONL
file is modelled as the list of its lines (each written record is one line;
`add_input` appends `json.dumps(record) + "\n"`).  JSON decoding of a line
is a parameter `parse`, standing for `json.loads`. -/

/-- Embeds `ConversationManager.save_messages`: full overwrite — the file is opened
with mode `"w"` and every message is written as one line; the previous file
content is discarded.  Returns the new file together with
`len(raw_messages)`. -/
def ConversationManager.save_messages {M : Type} (_file : List M)
    (raw_messages : List M) : List M × Nat :=
  (raw_messages, raw_messages.length)

/-! ## File reading utilities

Mirrors `app/utils/file_reader.py`.  `reverse_readline` walks the file
backwards in chunks and yields the non-empty lines newest-first; at the
line level (splitting the byte content on the newline separators) this is
the reverse of the file's lines with empty lines skipped. -/

/-- Python whitespace (the characters `str.strip()` removes). -/
def isPySpace (c : Char) : Bool :=
  c = ' ' ∨ c = '\t' ∨ c = '\n' ∨ c = '\r' ∨ c = '\x0b' ∨ c = '\x0c'

/-- Python `str.strip()`: removes leading and trailing whitespace. -/
def pyStrip (l : List Char) : List Char :=
  ((l.dropWhile isPySpace).reverse.dropWhile isPySpace).reverse

/-- Python `str.strip()` on strings. -/
def pyStripStr (s : String) : String :=
  String.mk (pyStrip s.data)

def reverse_readline (lines : List String) : List String :=
  (lines.reverse).filter (fun line => line ≠ "")

/-- Embeds the collect loop of `read_last_n_lines`: each generated line is
appended first, and only then `len(lines) >= n` is checked to break — so a
limit of `0` still collects the first (newest) generated line. -/
def read_last_n_lines_loop (acc : List String) (n : Nat) :
    List String → List String
  | [] => acc
  | l :: rest =>
    let acc' := acc ++ [l]
    if acc'.length ≥ n then acc' else read_last_n_lines_loop acc' n rest

/-- Embeds `read_last_n_lines`: collects lines from the `reverse_readline`
generator through the append-then-check loop; with `rev = true` (the
default at the call sites in `ConversationManager`) they stay newest-first,
otherwise the collected block is reversed back to oldest-first. -/
def read_last_n_lines (lines : List String) (n : Nat) (rev : Bool) :
    List String :=
  let acc := read_last_n_lines_loop [] n (reverse_readline lines)
  if rev then acc else acc.reverse

/-- Embeds `ConversationManager.get_inputs`: reads the last `limit` lines with the
default `reverse = True`, then decodes every line whose `strip()` is
non-empty. -/
def ConversationManager.get_inputs {A : Type} (parse : String → A)
    (lines : List String) (limit : Nat) : List A :=
  ((read_last_n_lines lines limit true).filter
    (fun line => pyStripStr line ≠ "")).map parse

/-- Embeds `ConversationManager.get_messages`: same access pattern as
`get_inputs`, on the conversation's synced-messages file. -/
def ConversationManager.get_messages {A : Type} (parse : String → A)
    (lines : List String) (limit : Nat) : List A :=
  ((read_last_n_lines lines limit true).filter
    (fun line => pyStripStr line ≠ "")).map parse

/-! ## REST handler `sync_conversation_messages`

Mirrors `app/api/v1/conversations.py`
(`POST /api/v1/conversations/.../messages/sync`) together with the
`handlers` map of `app/workers/__init__.py`.  The run of the worker's
`sync_messages` coroutine is an oracle `vendorFetch`; the handler turns a
`NotImplementedError` into a 501 response and any other exception into a
500 response, then saves the standardized messages through
`ConversationManager.save_messages` (full overwrite). -/

structure WorkerRecord where
  name : String
  wtype : String
  env_vars : List (String × String)
  command_params : List String
deriving DecidableEq, Repr

/-- The worker classes reachable from the API: `app/workers/__init__.py`
maps `"claudecode"` to `ClaudeCodeWorker` and `"opencode"` to
`OpenCodeWorker`. -/
inductive WorkerKind
  | claudecode
  | opencode
deriving DecidableEq, Repr

def handlers : String → Option WorkerKind := fun t =>
  if t = "claudecode" then some WorkerKind.claudecode
  else if t = "opencode" then some WorkerKind.opencode
  else none

/-- Modelled from the spec: the new-generation worker classes (the
`BaseWorker` with `start_conversation` / `continue_conversation` /
`fetch_messages` and the matching `OpenCodeWorker`) are missing from the
source tree — only their tests and callers are present.  Per the spec, the
OpenCode vendor adapter lacks sync/fetch support and signals this with the
distinct not-implemented signal (`NotImplementedError`, confirmed by
`tests/workers/v1/opencode.py`), while the Claude Code integration
implements message sync (`ClaudeCodeWorker.fetch_messages`). -/
def sync_implemented : WorkerKind → Bool
  | WorkerKind.claudecode => true
  | WorkerKind.opencode => false

/-- Outcome of awaiting the worker's `sync_messages` coroutine. -/
inductive SyncOutcome (M : Type)
  | ok (msgs : List M)
  | notImplemented
  | failure (detail : String)
deriving DecidableEq, Repr

structure SyncMessagesResponse where
  conversation_id : String
  synced_count : Nat
  total_messages : Nat
deriving DecidableEq, Repr

/-- Embeds `sync_conversation_messages`: resolves the conversation, requires its
`raw_conversation_id`, resolves the worker record and its class in
`handlers`, runs `sync_messages` (a worker type without sync support
raises `NotImplementedError`; the handler answers 501, any other failure
500), then saves via `ConversationManager.save_messages` and reports the
written count as both `synced_count` and `total_messages`. -/
def sync_conversation_messages {M : Type}
    (conversation : Option ConversationDO)
    (worker_record : Option WorkerRecord)
    (vendorFetch : SyncOutcome M) (file : List M) :
    ApiResult SyncMessagesResponse × List M :=
  match conversation with
  | none => (ApiResult.err 404 "Conversation not found", file)
  | some c =>
    match c.raw_conversation_id with
    | none =>
      (ApiResult.err 400 "Conversation has no raw_conversation_id, cannot sync",
       file)
    | some _ =>
      match worker_record with
      | none => (ApiResult.err 404 ("Worker not found: " ++ c.worker_id), file)
      | some w =>
        match handlers w.wtype with
        | none => (ApiResult.err 400 ("Unknown worker type: " ++ w.wtype), file)
        | some kind =>
          let outcome :=
            if sync_implemented kind then vendorFetch
            else SyncOutcome.notImplemented
          match outcome with
          | SyncOutcome.notImplemented =>
            (ApiResult.err 501
              ("sync_messages not implemented for worker type: " ++ w.wtype),
             file)
          | SyncOutcome.failure detail =>
            (ApiResult.err 500 ("Failed to sync messages: " ++ detail), file)
          | SyncOutcome.ok msgs =>
            let saved := ConversationManager.save_messages file msgs
            (ApiResult.ok
              { conversation_id := c.id
                synced_count := saved.2
                total_messages := saved.2 },
             saved.1)

/-! ## JSONL incremental reader

Mirrors `app/utils/jsonl_parser.py` (`JSONLParser.read_new_lines`).  The
file content is a string of characters (byte offsets coincide with
character offsets for the ASCII transcripts handled here); `last_position`
is the saved offset.  Python's text-file line iteration yields every line
including a trailing line that is not newline-terminated; each line is
`strip()`ed, blank lines are skipped, `json.loads` (the `parse` parameter,
`none` standing for `JSONDecodeError`) is applied and failures are skipped;
finally `tell()` — the end-of-file position — is stored. -/

/-- Python text-file line iteration over the unread suffix: splits at each
newline and also yields the trailing unterminated chunk (the `strip()`
applied afterwards removes the terminators, so lines are modelled without
them). -/
def JSONLParser.iterLines (acc : List Char) : List Char → List (List Char)
  | [] => if acc.isEmpty then [] else [acc.reverse]
  | c :: cs =>
    if c = '\n' then acc.reverse :: JSONLParser.iterLines [] cs
    else JSONLParser.iterLines (c :: acc) cs

/-- Embeds `JSONLParser.read_new_lines`: seek to `last_position`, iterate the
remaining lines, strip each, skip blanks, parse each as JSON skipping
failures, and store `tell()` (the end of file) as the new position. -/
def JSONLParser.read_new_lines {A : Type} (parse : String → Option A)
    (content : String) (last_position : Nat) : List A × Nat :=
  let remaining := content.data.drop last_position
  let lines := JSONLParser.iterLines [] remaining
  (lines.filterMap (fun l =>
      let line := String.mk (pyStrip l)
      if line = "" then none else parse line),
   last_position + remaining.length)

/-! ## ProcessHandler

Mirrors `py-worker/app/services/process_handler.py`.  The subprocess and
the stdout-reader task are opaque handles; the asynchronous environment is
an oracle: whether `asyncio.wait_for(process.wait(), timeout=5.0)` raises
`TimeoutError`, and whether some other exception escapes inside `stop`'s
`try` block (modelled at the `terminate()` call, e.g. a
`ProcessLookupError`).  The observable actions are recorded as a trace. -/

structure TaskRef where
  taskId : Nat
  done : Bool
deriving DecidableEq, Repr

structure ProcessHandlerState where
  process : Option Nat
  output_task : Option TaskRef
  is_running : Bool
deriving DecidableEq, Repr

inductive ProcessEvent
  | cancelOutputTask
  | awaitOutputTask
  | terminate
  | waitWithTimeout (seconds : Nat)
  | kill
  | waitAfterKill
  | spawn (pid : Nat)
  | startReader
deriving DecidableEq, Repr

structure StopEnv where
  waitTimesOut : Bool
  terminateRaises : Bool
deriving DecidableEq, Repr

/-- Embeds `ProcessHandler.stop`: returns immediately when not running; otherwise
cancels the output task (when present and not done) and awaits the
cancellation, then terminates the process, waits up to 5 seconds, and kills
on timeout; whatever path was taken (including an exception caught by the
`except` clause), the `finally` block clears `process`, `output_task` and
`is_running`. -/
def ProcessHandler.stop (s : ProcessHandlerState) (env : StopEnv) :
    ProcessHandlerState × List ProcessEvent :=
  if s.is_running = false then (s, [])
  else
    let cancelPart : List ProcessEvent :=
      match s.output_task with
      | some t =>
        if t.done then []
        else [ProcessEvent.cancelOutputTask, ProcessEvent.awaitOutputTask]
      | none => []
    let terminatePart : List ProcessEvent :=
      match s.process with
      | some _ =>
        if env.terminateRaises then [ProcessEvent.terminate]
        else if env.waitTimesOut then
          [ProcessEvent.terminate, ProcessEvent.waitWithTimeout 5,
           ProcessEvent.kill, ProcessEvent.waitAfterKill]
        else [ProcessEvent.terminate, ProcessEvent.waitWithTimeout 5]
      | none => []
    ({ process := none, output_task := none, is_running := false },
     cancelPart ++ terminatePart)

structure StartEnv where
  spawnResult : Option Nat
  needsFileWatcher : Bool
  newTask : TaskRef
deriving DecidableEq, Repr

/-- Embeds `ProcessHandler.start`: when already running, logs a warning and
returns `False` without touching any state; otherwise spawns the
subprocess (`spawnResult = none` models a spawn exception: `is_running`
is reset and `False` returned), sets `is_running`, and starts the
stdout-reader task when the adapter does not use file watching. -/
def ProcessHandler.start (s : ProcessHandlerState) (env : StartEnv) :
    Bool × ProcessHandlerState × List ProcessEvent :=
  if s.is_running then (false, s, [])
  else
    match env.spawnResult with
    | none => (false, { s with is_running := false }, [])
    | some pid =>
      let s1 := { s with process := some pid, is_running := true }
      if env.needsFileWatcher then (true, s1, [ProcessEvent.spawn pid])
      else
        (true, { s1 with output_task := some env.newTask },
         [ProcessEvent.spawn pid, ProcessEvent.startReader])

/-! ## Message normalizer

Mirrors `app/workers/v1/claude.py` (`ClaudeCodeWorker._convert_raw_message`).
Raw vendor records are JSON values; the Python library functions are
parameters: `dumps` for `json.dumps`, `pyStr` for `str`, and `parseTs` for
the `datetime.fromisoformat(timestamp_str.replace("Z", "+00:00"))` attempt
(returning `none` where Python would raise `ValueError` or
`AttributeError`, in which case the conversion falls back to `now`,
i.e. `datetime.utcnow()`).  Fields of the produced message that Python
passes through dynamically are kept as JSON values. -/

inductive JValue
  | null
  | bool (b : Bool)
  | num (n : Int)
  | str (s : String)
  | arr (items : List JValue)
  | obj (fields : List (String × JValue))

/-- Python `dict.get`: the value under the key, `None`-as-`none` when
absent (JSON objects have distinct keys, so the first match is the
value). -/
def jget (fields : List (String × JValue)) (key : String) : Option JValue :=
  (fields.find? (fun p => p.1 = key)).map (fun p => p.2)

/-- Python truthiness of a JSON-decoded value. -/
def truthy : JValue → Bool
  | JValue.null => false
  | JValue.bool b => b
  | JValue.num n => n ≠ 0
  | JValue.str s => s ≠ ""
  | JValue.arr items => ¬ items.isEmpty
  | JValue.obj fields => ¬ fields.isEmpty

/-- Python `x or y` over optional values (`none` models `None`). -/
def pyOr (x y : Option JValue) : Option JValue :=
  match x with
  | some v => if truthy v then some v else y
  | none => y

/-- Python `value == "literal"` for a dynamic value: true exactly when the
value is that string. -/
def jeqStr (v : JValue) (s : String) : Bool :=
  match v with
  | JValue.str t => t = s
  | _ => false

/-- One canonical content block, holding the values the Python code passes
to the `MessageContent` constructor. -/
structure MessageContentV where
  ctype : JValue
  content : JValue
  tool_name : Option JValue

/-- One canonical message, holding the values the Python code passes to
the `MessageResponse` constructor; `error` is always built through `str`,
hence a `String`. -/
structure MessageResponseV where
  uuid : JValue
  mtype : JValue
  contents : List MessageContentV
  timestamp : Nat
  parent_uuid : Option JValue
  model : Option JValue
  usage : Option JValue
  error : Option String

/-- One entry of a `user` record's content-block list:
`block.get("text") or block.get("content", "")` is surfaced (lists
serialized through `json.dumps`, other non-strings through `str`), tagged
with the block's own type string, carrying
`block.get("tool_use_id") or block.get("name")` as the tool name.
Non-dict entries are skipped (`continue`). -/
def convertUserBlock (dumps pyStr : JValue → String) (block : JValue) :
    Option MessageContentV :=
  match block with
  | JValue.obj bf =>
    let btype := (jget bf "type").getD (JValue.str "")
    let rawv := (pyOr (jget bf "text")
      (some ((jget bf "content").getD (JValue.str "")))).getD (JValue.str "")
    let contentStr :=
      match rawv with
      | JValue.arr items => dumps (JValue.arr items)
      | JValue.str s => s
      | v => pyStr v
    some { ctype := btype
           content := JValue.str contentStr
           tool_name := pyOr (jget bf "tool_use_id") (jget bf "name") }
  | _ => none

/-- One entry of an `assistant` record's content-block list: `text` blocks
copy through, `tool_use` blocks serialize their input and carry the tool
name, `tool_result` blocks stringify list results and carry the
originating tool-call id, and unrecognized block types are preserved as a
JSON-serialized fallback.  Non-dict entries are skipped. -/
def convertAssistantBlock (dumps pyStr : JValue → String) (block : JValue) :
    Option MessageContentV :=
  match block with
  | JValue.obj bf =>
    let bt := (jget bf "type").getD (JValue.str "")
    if jeqStr bt "text" then
      some { ctype := JValue.str "text"
             content := (jget bf "text").getD (JValue.str "")
             tool_name := none }
    else if jeqStr bt "tool_use" then
      some { ctype := JValue.str "tool_use"
             content := JValue.str (dumps ((jget bf "input").getD (JValue.obj [])))
             tool_name := jget bf "name" }
    else if jeqStr bt "tool_result" then
      let rc := (jget bf "content").getD (JValue.str "")
      let rcStr :=
        match rc with
        | JValue.arr items => dumps (JValue.arr items)
        | JValue.str s => s
        | v => pyStr v
      some { ctype := JValue.str "tool_result"
             content := JValue.str rcStr
             tool_name := jget bf "tool_use_id" }
    else
      some { ctype := bt
             content := JValue.str (dumps block)
             tool_name := none }
  | _ => none

/-- Embeds `ClaudeCodeWorker._convert_raw_message`.  Returns `none` where the
Python code raises (a `user`/`assistant` record whose `message` value is
present but not a dict: `message.get` raises `AttributeError`, and
`fetch_messages` skips the record). -/
def convert_raw_message (dumps pyStr : JValue → String)
    (parseTs : JValue → Option Nat) (now : Nat)
    (raw : List (String × JValue)) : Option MessageResponseV :=
  let msgTypeVal := (jget raw "type").getD (JValue.str "unknown")
  let tsVal := (jget raw "timestamp").getD (JValue.str "")
  let uuidVal :=
    (pyOr (pyOr (jget raw "uuid") (jget raw "sessionId"))
      (some (JValue.str ""))).getD (JValue.str "")
  let finalUuid :=
    if truthy uuidVal then uuidVal
    else JValue.str (pyStr msgTypeVal ++ "-" ++ pyStr tsVal)
  let timestamp := (parseTs tsVal).getD now
  let parent_uuid := jget raw "parentUuid"
  let messageVal := (jget raw "message").getD (JValue.obj [])
  let base : MessageResponseV :=
    { uuid := finalUuid
      mtype := msgTypeVal
      contents := []
      timestamp := timestamp
      parent_uuid := parent_uuid
      model := none
      usage := none
      error := none }
  if jeqStr msgTypeVal "user" then
    match messageVal with
    | JValue.obj mf =>
      let user_content := (jget mf "content").getD (JValue.str "")
      let contents :=
        match user_content with
        | JValue.str s =>
          [{ ctype := JValue.str "text"
             content := JValue.str s
             tool_name := none }]
        | JValue.arr blocks => blocks.filterMap (convertUserBlock dumps pyStr)
        | _ => []
      some { base with contents := contents }
    | _ => none
  else if jeqStr msgTypeVal "assistant" then
    match messageVal with
    | JValue.obj mf =>
      let model := jget mf "model"
      let usage := jget mf "usage"
      let assistant_content := (jget mf "content").getD (JValue.arr [])
      let contents :=
        match assistant_content with
        | JValue.arr blocks =>
          blocks.filterMap (convertAssistantBlock dumps pyStr)
        | JValue.str s =>
          [{ ctype := JValue.str "text"
             content := JValue.str s
             tool_name := none }]
        | _ => []
      let error :=
        match jget mf "error" with
        | some v => if truthy v then some (pyStr v) else none
        | none => none
      some { base with
              contents := contents
              model := model
              usage := usage
              error := error }
    | _ => none
  else some base

/-! ## Concrete library-function instantiations

Used by closed witness/counterexample statements, where the parameters
standing for `json.dumps`, `str` and the timestamp parser must be
evaluated on concrete inputs.  Only their values on the concrete inputs
matter there. -/

/-- A concrete stand-in for `json.dumps` on the inputs of the closed
statements (none of which exercise serialization). -/
def dumps0 : JValue → String := fun _ => ""

/-- A concrete stand-in for Python `str` on the inputs of the closed
statements: identity on strings. -/
def pyStr0 : JValue → String
  | JValue.str s => s
  | _ => ""

/-- A concrete stand-in for the timestamp parse attempt: always fails, so
conversion falls back to `now`. -/
def parseTs0 : JValue → Option Nat := fun _ => none

/-! # Theorems -/

/-! ### C7: create_conversation validates the project path -/

/-- C7: for every `create_conversation` request whose `project_path` does
not exist or is not a directory, the handler answers a 400 validation
error and the conversations table is unchanged — the path checks happen
before any insert. -/
theorem create_conversation_invalid_path_rejected
    (fs : String → PathState) (workers : List String) (newId : String)
    (now : Nat) (request : CreateConversationRequest)
    (store : ConversationStore)
    (h : fs request.project_path ≠ PathState.dir) :
    (create_conversation fs workers newId now request store).2 = store ∧
    ∃ detail, (create_conversation fs workers newId now request store).1 =
      ApiResult.err 400 detail := by
  unfold create_conversation
  cases hfs : fs request.project_path with
  | absent => simp [hfs]
  | file => simp [hfs]
  | dir => exact absurd hfs h

/-- Witness for C7 at a concrete request whose path is absent. -/
theorem create_conversation_invalid_path_rejected_witness :
    ((create_conversation (fun _ => PathState.absent) ["w1"] "c1" 0
        ⟨"w1", "/nope", "conv"⟩ []).2 = [] ∧
     ∃ detail, (create_conversation (fun _ => PathState.absent) ["w1"] "c1" 0
        ⟨"w1", "/nope", "conv"⟩ []).1 = ApiResult.err 400 detail) :=
  create_conversation_invalid_path_rejected
    (fun _ => PathState.absent) ["w1"] "c1" 0 ⟨"w1", "/nope", "conv"⟩ []
    (by decide)

/-! ### C1: the is_current invariant -/

/-- C1 counterexample: `create_conversation` records the new conversation
with `is_current = True` but — unlike `switch_current` — unsets nothing,
so creating two conversations for worker `"w1"` on an empty store reaches
a state with two current conversations for that worker. -/
theorem create_conversation_two_current_reachable :
    currentCount
      ((create_conversation (fun _ => PathState.dir) ["w1"] "c2" 1
          ⟨"w1", "/tmp", "second"⟩
          ((create_conversation (fun _ => PathState.dir) ["w1"] "c1" 0
              ⟨"w1", "/tmp", "first"⟩ []).2)).2) "w1" = 2 := by decide

theorem countP_id_le_one (store : ConversationStore) (cid : String)
    (h : (store.map (fun c => c.id)).Nodup) :
    store.countP (fun c => decide (c.id = cid)) ≤ 1 := by
  induction store with
  | nil => simp
  | cons c rest ih =>
    rw [List.map_cons, List.nodup_cons] at h
    rw [List.countP_cons]
    by_cases hc : c.id = cid
    · have hrest : rest.countP (fun c => decide (c.id = cid)) = 0 := by
        rw [List.countP_eq_zero]
        intro x hx
        simp only [decide_eq_true_eq]
        intro hxid
        exact h.1 (by
          rw [hc, ← hxid]
          exact List.mem_map_of_mem (fun c => c.id) hx)
      simp [hc, hrest]
    · simpa [hc] using ih h.2

theorem currentCount_switch_current (store : ConversationStore)
    (w cid : String) (now : Nat) :
    currentCount (ConversationRepository.switch_current store w cid now) w =
      store.countP (fun c => decide (c.worker_id = w) && decide (c.id = cid)) := by
  unfold currentCount ConversationRepository.switch_current
  rw [List.filter_map, List.length_map, ← List.countP_eq_length_filter]
  apply List.countP_congr
  intro c _
  by_cases h1 : c.worker_id = w ∧ c.id = cid
  · simp [h1, h1.1, h1.2]
  · by_cases h2 : c.worker_id = w
    · have h3 : ¬ c.id = cid := fun hc => h1 ⟨h2, hc⟩
      simp [h1, h2, h3]
    · simp [h1, h2]

/-- C1 amended: `switch_current` does atomically unset all other
conversations of the worker before setting the target current, so after
any `switch_current` on a store with distinct conversation ids the worker
has at most one current conversation; `create_conversation`, however,
inserts the new conversation with the current flag set without unsetting
the others, so a store with two current conversations for one worker is
reachable. -/
theorem switch_current_at_most_one_current (store : ConversationStore)
    (w cid : String) (now : Nat)
    (h : (store.map (fun c => c.id)).Nodup) :
    currentCount (ConversationRepository.switch_current store w cid now) w ≤ 1 := by
  rw [currentCount_switch_current]
  calc store.countP (fun c => decide (c.worker_id = w) && decide (c.id = cid))
      ≤ store.countP (fun c => decide (c.id = cid)) := by
        apply List.countP_mono_left
        intro c _ hcp
        exact (Bool.and_eq_true _ _ |>.mp hcp).2
    _ ≤ 1 := countP_id_le_one store cid h

/-- Witness for the C1 amended theorem on a concrete two-row store. -/
theorem switch_current_at_most_one_current_witness :
    (([⟨"c1", "w1", "/tmp", "a", 0, 0, true, none, []⟩,
       ⟨"c2", "w1", "/tmp", "b", 0, 0, true, none, []⟩] :
        ConversationStore).map (fun c => c.id)).Nodup ∧
    currentCount
      (ConversationRepository.switch_current
        [⟨"c1", "w1", "/tmp", "a", 0, 0, true, none, []⟩,
         ⟨"c2", "w1", "/tmp", "b", 0, 0, true, none, []⟩] "w1" "c2" 5) "w1" ≤ 1 :=
  ⟨by decide,
   switch_current_at_most_one_current
     [⟨"c1", "w1", "/tmp", "a", 0, 0, true, none, []⟩,
      ⟨"c2", "w1", "/tmp", "b", 0, 0, true, none, []⟩] "w1" "c2" 5 (by decide)⟩

/-! ### C2: duplicate source uuids in add_batch -/

/-- C2 counterexample: `add_batch` inserts through `INSERT ... WHERE NOT
EXISTS (SELECT 1 FROM messages WHERE uuid = ?)`, so the second record with
the duplicate uuid is ignored — the single stored row keeps the content of
the earlier insert (`"first content"`), not the later one
(`"second content"`) as the claim states. -/
theorem add_batch_duplicate_keeps_first_content :
    MessageRepository.add_batch []
      [⟨"conv1", "w1", "user", "u-dup", "first content", 1⟩,
       ⟨"conv1", "w1", "user", "u-dup", "second content", 2⟩] =
      ([⟨"conv1", "w1", "user", "u-dup", "first content", 1⟩], 2) ∧
    ("first content" : String) ≠ "second content" := by
  constructor
  · rfl
  · decide

/-- C2 amended: inserting two raw records with the same source uuid into a
message store holding no row with that uuid results in exactly one stored
row for that uuid, and its content is the content of the EARLIER insert —
the later duplicate is ignored (first write wins), not applied over the
earlier one. -/
theorem add_batch_duplicate_uuid_single_row_first_wins
    (store : MessageStore) (m1 m2 : MessageDO)
    (hdup : m2.uuid = m1.uuid)
    (hfresh : rowsWithUuid store m1.uuid = []) :
    rowsWithUuid (MessageRepository.add_batch store [m1, m2]).1 m1.uuid =
      [m1] := by
  have hnone : ∀ r ∈ store, ¬ r.uuid = m1.uuid := by
    intro r hr hru
    have : r ∈ rowsWithUuid store m1.uuid := by
      unfold rowsWithUuid
      rw [List.mem_filter]
      exact ⟨hr, by simp [hru]⟩
    rw [hfresh] at this
    exact absurd this (List.not_mem_nil r)
  have hany1 : (store.any fun r => decide (r.uuid = m1.uuid)) = false := by
    rw [List.any_eq_false]
    intro r hr
    simpa using hnone r hr
  have hany2 : ∃ x ∈ store ++ [m1], x.uuid = m2.uuid :=
    ⟨m1, by simp, hdup.symm⟩
  have hfilter : store.filter (fun r => decide (r.uuid = m1.uuid)) = [] := by
    rw [List.filter_eq_nil_iff]
    intro r hr
    simpa using hnone r hr
  simp only [MessageRepository.add_batch, hany1]
  have hred : (if false = true then store else store ++ [m1]) = store ++ [m1] := by
    simp
  simp only [hred]
  unfold rowsWithUuid
  simp only [List.any_eq_true, decide_eq_true_eq]
  rw [if_pos hany2, List.filter_append, hfilter]
  simp

/-- Witness for the C2 amended theorem on a concrete duplicate pair. -/
theorem add_batch_duplicate_uuid_single_row_first_wins_witness :
    (⟨"conv1", "w1", "user", "u-dup", "second content", 2⟩ :
        MessageDO).uuid =
      (⟨"conv1", "w1", "user", "u-dup", "first content", 1⟩ :
        MessageDO).uuid ∧
    rowsWithUuid ([] : MessageStore)
      (⟨"conv1", "w1", "user", "u-dup", "first content", 1⟩ :
        MessageDO).uuid = [] ∧
    rowsWithUuid
      (MessageRepository.add_batch []
        [⟨"conv1", "w1", "user", "u-dup", "first content", 1⟩,
         ⟨"conv1", "w1", "user", "u-dup", "second content", 2⟩]).1
      "u-dup" = [⟨"conv1", "w1", "user", "u-dup", "first content", 1⟩] :=
  ⟨rfl, rfl,
   add_batch_duplicate_uuid_single_row_first_wins []
     ⟨"conv1", "w1", "user", "u-dup", "first content", 1⟩
     ⟨"conv1", "w1", "user", "u-dup", "second content", 2⟩ rfl rfl⟩

/-! ### C3: sync is idempotent -/

/-- C3: for a conversation with a raw session id and a worker type whose
sync is implemented, running the sync handler twice with unchanged vendor
output writes the same message file (full overwrite with the same
standardized messages) and reports the same synced/total counts both
times. -/
theorem sync_twice_same_file_and_count {M : Type} (c : ConversationDO)
    (w : WorkerRecord) (kind : WorkerKind) (msgs : List M) (file0 : List M)
    (rid : String)
    (hraw : c.raw_conversation_id = some rid)
    (hkind : handlers w.wtype = some kind)
    (himpl : sync_implemented kind = true) :
    (sync_conversation_messages (some c) (some w) (SyncOutcome.ok msgs)
        ((sync_conversation_messages (some c) (some w) (SyncOutcome.ok msgs)
            file0).2)).2 =
      (sync_conversation_messages (some c) (some w) (SyncOutcome.ok msgs)
          file0).2 ∧
    (sync_conversation_messages (some c) (some w) (SyncOutcome.ok msgs)
        ((sync_conversation_messages (some c) (some w) (SyncOutcome.ok msgs)
            file0).2)).1 =
      (sync_conversation_messages (some c) (some w) (SyncOutcome.ok msgs)
          file0).1 ∧
    (sync_conversation_messages (some c) (some w) (SyncOutcome.ok msgs)
        file0).1 =
      ApiResult.ok ⟨c.id, msgs.length, msgs.length⟩ := by
  simp [sync_conversation_messages, ConversationManager.save_messages,
    hraw, hkind, himpl]

/-- Witness for C3 on a concrete conversation and vendor output. -/
theorem sync_twice_same_file_and_count_witness :
    (⟨"c1", "w1", "/tmp", "a", 0, 0, true, some "raw-1", []⟩ :
        ConversationDO).raw_conversation_id = some "raw-1" ∧
    handlers (⟨"w1", "claudecode", [], []⟩ : WorkerRecord).wtype =
      some WorkerKind.claudecode ∧
    sync_implemented WorkerKind.claudecode = true ∧
    (sync_conversation_messages
        (some ⟨"c1", "w1", "/tmp", "a", 0, 0, true, some "raw-1", []⟩)
        (some ⟨"w1", "claudecode", [], []⟩)
        (SyncOutcome.ok ["m1", "m2"])
        ((sync_conversation_messages
            (some ⟨"c1", "w1", "/tmp", "a", 0, 0, true, some "raw-1", []⟩)
            (some ⟨"w1", "claudecode", [], []⟩)
            (SyncOutcome.ok ["m1", "m2"]) ["stale"]).2)).2 =
      (sync_conversation_messages
          (some ⟨"c1", "w1", "/tmp", "a", 0, 0, true, some "raw-1", []⟩)
          (some ⟨"w1", "claudecode", [], []⟩)
          (SyncOutcome.ok ["m1", "m2"]) ["stale"]).2 ∧
    (sync_conversation_messages
        (some ⟨"c1", "w1", "/tmp", "a", 0, 0, true, some "raw-1", []⟩)
        (some ⟨"w1", "claudecode", [], []⟩)
        (SyncOutcome.ok ["m1", "m2"]) ["stale"]).1 =
      ApiResult.ok ⟨"c1", 2, 2⟩ :=
  ⟨rfl, by decide, rfl,
   (sync_twice_same_file_and_count
     ⟨"c1", "w1", "/tmp", "a", 0, 0, true, some "raw-1", []⟩
     ⟨"w1", "claudecode", [], []⟩ WorkerKind.claudecode ["m1", "m2"]
     ["stale"] "raw-1" rfl (by decide) rfl).1,
   (sync_twice_same_file_and_count
     ⟨"c1", "w1", "/tmp", "a", 0, 0, true, some "raw-1", []⟩
     ⟨"w1", "claudecode", [], []⟩ WorkerKind.claudecode ["m1", "m2"]
     ["stale"] "raw-1" rfl (by decide) rfl).2.2⟩

/-! ### C4: not-implemented sync answers 501, not 500 -/

/-- C4: for every worker type in the `handlers` map whose integration does
not implement message sync, the sync handler answers the distinct 501
not-implemented result (via the `except NotImplementedError` branch) and
never the generic 500 failure result. -/
theorem sync_not_implemented_returns_501 {M : Type} (c : ConversationDO)
    (w : WorkerRecord) (kind : WorkerKind) (vendorFetch : SyncOutcome M)
    (file : List M) (rid : String)
    (hraw : c.raw_conversation_id = some rid)
    (hkind : handlers w.wtype = some kind)
    (himpl : sync_implemented kind = false) :
    (sync_conversation_messages (some c) (some w) vendorFetch file).1 =
      ApiResult.err 501
        ("sync_messages not implemented for worker type: " ++ w.wtype) ∧
    ∀ detail,
      (sync_conversation_messages (some c) (some w) vendorFetch file).1 ≠
        ApiResult.err 500 detail := by
  simp [sync_conversation_messages, hraw, hkind, himpl]

/-- Witness for C4 at the `"opencode"` worker type. -/
theorem sync_not_implemented_returns_501_witness :
    (⟨"c1", "w1", "/tmp", "a", 0, 0, true, some "raw-1", []⟩ :
        ConversationDO).raw_conversation_id = some "raw-1" ∧
    handlers (⟨"w1", "opencode", [], []⟩ : WorkerRecord).wtype =
      some WorkerKind.opencode ∧
    sync_implemented WorkerKind.opencode = false ∧
    (sync_conversation_messages
        (some ⟨"c1", "w1", "/tmp", "a", 0, 0, true, some "raw-1", []⟩)
        (some ⟨"w1", "opencode", [], []⟩)
        (SyncOutcome.ok (["m1"] : List String)) []).1 =
      ApiResult.err 501
        "sync_messages not implemented for worker type: opencode" :=
  ⟨rfl, by decide, rfl,
   (sync_not_implemented_returns_501
     ⟨"c1", "w1", "/tmp", "a", 0, 0, true, some "raw-1", []⟩
     ⟨"w1", "opencode", [], []⟩ WorkerKind.opencode
     (SyncOutcome.ok (["m1"] : List String)) [] "raw-1" rfl (by decide)
     rfl).1⟩

/-! ### C5: where the normalizer reads the error field -/

/-- C5 counterexample: a record carrying a top-level `error` field
(`"boom"`) produces a canonical message whose `error` is `None` — the
normalizer reads `raw["message"]["error"]`, never the record's top-level
`error` field, so the claimed copy does not happen. -/
theorem convert_top_level_error_not_copied :
    (convert_raw_message dumps0 pyStr0 parseTs0 0
        [("type", JValue.str "assistant"), ("uuid", JValue.str "a1"),
         ("error", JValue.str "boom"),
         ("message", JValue.obj [("content", JValue.arr [])])]).map
      (fun r => r.error) = some none ∧
    jget
      [("type", JValue.str "assistant"), ("uuid", JValue.str "a1"),
       ("error", JValue.str "boom"),
       ("message", JValue.obj [("content", JValue.arr [])])] "error" =
      some (JValue.str "boom") ∧
    (some "boom" : Option String) ≠ none := by
  refine ⟨rfl, rfl, by decide⟩

/-- C5 amended: only `assistant`-type records carry an error over, and it
is read from the nested `message` object, not from the record's top level:
when `raw["message"]["error"]` is present and truthy, the canonical
message's `error` equals `str` of that value. -/
theorem convert_error_copied_from_nested_message
    (dumps pyStr : JValue → String) (parseTs : JValue → Option Nat)
    (now : Nat) (raw mf : List (String × JValue)) (v : JValue)
    (hty : jget raw "type" = some (JValue.str "assistant"))
    (hmsg : jget raw "message" = some (JValue.obj mf))
    (herr : jget mf "error" = some v)
    (htr : truthy v = true) :
    (convert_raw_message dumps pyStr parseTs now raw).map (fun r => r.error) =
      some (some (pyStr v)) := by
  simp [convert_raw_message, jeqStr, hty, hmsg, herr, htr]

/-- Witness for the C5 amended theorem: the nested-error record of
`tests/workers/v1/claude.py` (`test_convert_assistant_error`). -/
theorem convert_error_copied_from_nested_message_witness :
    jget
      [("type", JValue.str "assistant"), ("uuid", JValue.str "a4"),
       ("message",
        JValue.obj [("content", JValue.arr []),
                    ("error", JValue.str "rate limit exceeded")])] "type" =
      some (JValue.str "assistant") ∧
    truthy (JValue.str "rate limit exceeded") = true ∧
    (convert_raw_message dumps0 pyStr0 parseTs0 0
        [("type", JValue.str "assistant"), ("uuid", JValue.str "a4"),
         ("message",
          JValue.obj [("content", JValue.arr []),
                      ("error", JValue.str "rate limit exceeded")])]).map
      (fun r => r.error) = some (some "rate limit exceeded") :=
  ⟨rfl, rfl,
   convert_error_copied_from_nested_message dumps0 pyStr0 parseTs0 0
     [("type", JValue.str "assistant"), ("uuid", JValue.str "a4"),
      ("message",
       JValue.obj [("content", JValue.arr []),
                   ("error", JValue.str "rate limit exceeded")])]
     [("content", JValue.arr []), ("error", JValue.str "rate limit exceeded")]
     (JValue.str "rate limit exceeded") rfl rfl rfl rfl⟩

/-! ### C6: the incremental JSONL reader and partial trailing lines -/

/-- C6 counterexample: feeding content `"ab\ncd"` (the record `cd` not yet
newline-terminated) from offset `0`, `read_new_lines` delivers the partial
trailing line `"cd"` together with `"ab"` and records the end-of-file
offset `5` — the partial line is consumed immediately, not held back, and
the recorded offset is not the end of the last completed line (`3`). -/
theorem read_new_lines_consumes_trailing_line :
    JSONLParser.read_new_lines (fun s => some s) "ab\ncd" 0 =
      (["ab", "cd"], 5) ∧
    "cd" ∈ (JSONLParser.read_new_lines (fun s => some s) "ab\ncd" 0).1 ∧
    (JSONLParser.read_new_lines (fun s => some s) "ab\ncd" 0).2 ≠ 3 := by
  refine ⟨by decide, by decide, by decide⟩

theorem iterLines_no_newline (cs : List Char) (acc : List Char)
    (h : ¬ '\n' ∈ cs) :
    JSONLParser.iterLines acc cs =
      if acc.reverse ++ cs = [] then [] else [acc.reverse ++ cs] := by
  induction cs generalizing acc with
  | nil =>
    simp [JSONLParser.iterLines, List.isEmpty_iff]
  | cons c cs ih =>
    have hc : ¬ c = '\n' := by
      intro hc
      exact h (hc ▸ List.mem_cons_self c cs)
    have hcs : ¬ '\n' ∈ cs := fun hm => h (List.mem_cons_of_mem c hm)
    rw [JSONLParser.iterLines]
    rw [if_neg hc]
    rw [ih (c :: acc) hcs]
    have hne1 : acc.reverse ++ c :: cs ≠ [] := by simp
    have hne2 : (c :: acc).reverse ++ cs ≠ [] := by simp
    rw [if_neg hne2, if_neg hne1]
    simp

/-- C6 amended: on each modification event the incremental reader resumes
at the last-read byte offset and consumes everything up to end of file: a
trailing line not yet terminated by a newline is delivered (stripped and
JSON-parsed) in the same read rather than held back, the recorded offset
is the end-of-file position even past the last completed line, and an
immediate re-read from the recorded offset yields nothing new. -/
theorem read_new_lines_unterminated_tail_consumed {A : Type}
    (parse : String → Option A) (content : String) (pos : Nat)
    (hnl : ¬ '\n' ∈ content.data.drop pos)
    (hne : content.data.drop pos ≠ []) :
    (JSONLParser.read_new_lines parse content pos).1 =
      (if String.mk (pyStrip (content.data.drop pos)) = "" then []
       else (parse (String.mk (pyStrip (content.data.drop pos)))).toList) ∧
    (JSONLParser.read_new_lines parse content pos).2 =
      pos + (content.data.drop pos).length ∧
    JSONLParser.read_new_lines parse content
        (pos + (content.data.drop pos).length) =
      ([], pos + (content.data.drop pos).length) := by
  refine ⟨?_, rfl, ?_⟩
  · simp only [JSONLParser.read_new_lines]
    rw [iterLines_no_newline _ [] (by simpa using hnl)]
    rw [if_neg (by simpa using hne)]
    simp only [List.nil_append, List.reverse_nil, List.filterMap_cons,
      List.filterMap_nil]
    by_cases hblank : String.mk (pyStrip (content.data.drop pos)) = ""
    · simp [hblank]
    · cases hp : parse (String.mk (pyStrip (content.data.drop pos))) with
      | none => simp [hblank, hp]
      | some a => simp [hblank, hp]
  · have hdrop : content.data.drop (pos + (content.data.drop pos).length) = [] := by
      rw [← List.drop_drop]
      exact List.drop_length _
    simp only [JSONLParser.read_new_lines]
    rw [hdrop]
    simp [JSONLParser.iterLines]

/-- Witness for the C6 amended theorem on the single unterminated record
`"cd"`. -/
theorem read_new_lines_unterminated_tail_consumed_witness :
    ¬ '\n' ∈ ("cd" : String).data.drop 0 ∧
    ("cd" : String).data.drop 0 ≠ [] ∧
    (JSONLParser.read_new_lines (fun s => some s) "cd" 0).1 = ["cd"] ∧
    (JSONLParser.read_new_lines (fun s => some s) "cd" 0).2 = 2 :=
  ⟨by decide, by decide,
   by
    have h := read_new_lines_unterminated_tail_consumed
      (fun s => some s) "cd" 0 (by decide) (by decide)
    rw [h.1]
    decide,
   by
    have h := read_new_lines_unterminated_tail_consumed
      (fun s => some s) "cd" 0 (by decide) (by decide)
    rw [h.2.1]
    decide⟩

/-! ### C8: ProcessHandler.stop -/

/-- C8: when the handler is running, `stop` first cancels the stdout-reader
task (if present and not done) and awaits its cancellation before anything
else, then sends the graceful terminate and waits at most 5 seconds,
escalating to `kill` exactly when that wait times out (and no exception
pre-empted it); on every path — graceful exit, kill or exception — the
`finally` block leaves the process reference, output-task reference and
running flag cleared. -/
theorem process_handler_stop_cleanup_and_escalation
    (s : ProcessHandlerState) (env : StopEnv) (h : s.is_running = true) :
    (ProcessHandler.stop s env).1.process = none ∧
    (ProcessHandler.stop s env).1.output_task = none ∧
    (ProcessHandler.stop s env).1.is_running = false ∧
    (∀ t, s.output_task = some t → t.done = false →
      (ProcessHandler.stop s env).2.take 2 =
        [ProcessEvent.cancelOutputTask, ProcessEvent.awaitOutputTask]) ∧
    (ProcessEvent.kill ∈ (ProcessHandler.stop s env).2 ↔
      (s.process.isSome = true ∧ env.terminateRaises = false ∧
       env.waitTimesOut = true)) ∧
    (s.process.isSome = true → env.terminateRaises = false →
      ProcessEvent.terminate ∈ (ProcessHandler.stop s env).2 ∧
      ProcessEvent.waitWithTimeout 5 ∈ (ProcessHandler.stop s env).2) := by
  obtain ⟨proc, otask, irun⟩ := s
  obtain ⟨wto, tr⟩ := env
  simp only at h
  subst h
  rcases otask with _ | ⟨tid, d⟩
  · cases proc <;> cases wto <;> cases tr <;> simp [ProcessHandler.stop]
  · cases d <;> cases proc <;> cases wto <;> cases tr <;>
      simp [ProcessHandler.stop]

/-- Witness for C8: a running handler with a live reader task, whose
terminate wait times out. -/
theorem process_handler_stop_cleanup_and_escalation_witness :
    (⟨some 42, some ⟨7, false⟩, true⟩ : ProcessHandlerState).is_running =
      true ∧
    (ProcessHandler.stop ⟨some 42, some ⟨7, false⟩, true⟩ ⟨true, false⟩).1 =
      ⟨none, none, false⟩ ∧
    (ProcessHandler.stop ⟨some 42, some ⟨7, false⟩, true⟩ ⟨true, false⟩).2.take 2 =
      [ProcessEvent.cancelOutputTask, ProcessEvent.awaitOutputTask] ∧
    ProcessEvent.kill ∈
      (ProcessHandler.stop ⟨some 42, some ⟨7, false⟩, true⟩ ⟨true, false⟩).2 := by
  have h := process_handler_stop_cleanup_and_escalation
    ⟨some 42, some ⟨7, false⟩, true⟩ ⟨true, false⟩ rfl
  refine ⟨rfl, ?_, h.2.2.2.1 ⟨7, false⟩ rfl rfl, h.2.2.2.2.1.mpr ⟨rfl, rfl, rfl⟩⟩
  have h1 := h.1
  have h2 := h.2.1
  have h3 := h.2.2.1
  cases hs : (ProcessHandler.stop ⟨some 42, some ⟨7, false⟩, true⟩ ⟨true, false⟩).1
  rw [hs] at h1 h2 h3
  simp only at h1 h2 h3
  rw [h1, h2, h3]

/-! ### C9: ProcessHandler.start while already running -/

/-- C9: calling `start` while `is_running` is true logs a warning and
returns `False` without spawning anything or touching the process
reference, output-task reference or running flag. -/
theorem process_handler_start_noop_when_running
    (s : ProcessHandlerState) (env : StartEnv) (h : s.is_running = true) :
    ProcessHandler.start s env = (false, s, []) := by
  simp [ProcessHandler.start, h]

/-- Witness for C9 on a concrete running handler. -/
theorem process_handler_start_noop_when_running_witness :
    (⟨some 42, some ⟨1, false⟩, true⟩ : ProcessHandlerState).is_running =
      true ∧
    ProcessHandler.start ⟨some 42, some ⟨1, false⟩, true⟩
        ⟨some 43, false, ⟨2, false⟩⟩ =
      (false, ⟨some 42, some ⟨1, false⟩, true⟩, []) :=
  ⟨rfl,
   process_handler_start_noop_when_running ⟨some 42, some ⟨1, false⟩, true⟩
     ⟨some 43, false, ⟨2, false⟩⟩ rfl⟩

/-! ### C10: get_inputs / get_messages return newest-first -/

/-- C10 counterexample: the collect loop of `read_last_n_lines` appends
each line before checking `len(lines) >= n`, so with limit `0` on a
two-record file `get_inputs` returns the single newest record instead of
the `min(n, 0) = 0` records the claim demands. -/
theorem get_inputs_limit_zero_returns_newest :
    ConversationManager.get_inputs (fun s => s) ["r1", "r2"] 0 = ["r2"] ∧
    (ConversationManager.get_inputs (fun s => s) ["r1", "r2"] 0).length = 1 ∧
    ((["r1", "r2"] : List String).filter (fun l => l ≠ "")).length = 2 ∧
    (1 : Nat) ≠ min 0 2 := by
  refine ⟨by decide, by decide, by decide, by decide⟩

theorem read_last_n_lines_loop_eq_take (n : Nat) (gen : List String)
    (acc : List String) (h : acc.length < n) :
    read_last_n_lines_loop acc n gen = acc ++ gen.take (n - acc.length) := by
  induction gen generalizing acc with
  | nil => simp [read_last_n_lines_loop]
  | cons l rest ih =>
    rw [read_last_n_lines_loop]
    simp only [List.length_append, List.length_cons, List.length_nil]
    by_cases hbreak : acc.length + (0 + 1) ≥ n
    · rw [if_pos hbreak]
      have hn : n - acc.length = 1 := by omega
      rw [hn]
      simp
    · rw [if_neg hbreak]
      rw [ih (acc ++ [l]) (by simpa using by omega)]
      have hn : n - acc.length = (n - (acc.length + 1)) + 1 := by omega
      rw [List.length_append]
      simp only [List.length_cons, List.length_nil]
      rw [show acc.length + (0 + 1) = acc.length + 1 by omega, hn]
      simp [List.take_succ_cons]

/-- C10 amended: for every limit `k ≥ 1` — the only limits reachable
through the API, whose query validation enforces `1 ≤ limit ≤ 1000` —
`get_inputs` and `get_messages` return the last `min(n, k)` records of the
file in reverse of append order (newest first, not oldest-first
chronological order), skipping blank lines; at limit `0` the loop's
length check runs only after the first append, so the single newest record
is still returned. -/
theorem get_inputs_newest_first {A : Type} (parse : String → A)
    (lines : List String) (k : Nat) (hk : 1 ≤ k)
    (h : ∀ l ∈ lines, l ≠ "" → pyStripStr l ≠ "") :
    ConversationManager.get_inputs parse lines k =
      (((lines.filter (fun l => l ≠ "")).reverse).take k).map parse ∧
    ConversationManager.get_messages parse lines k =
      (((lines.filter (fun l => l ≠ "")).reverse).take k).map parse ∧
    (ConversationManager.get_inputs parse lines k).length =
      min k (lines.filter (fun l => l ≠ "")).length := by
  have hsel :
      (read_last_n_lines lines k true).filter (fun l => pyStripStr l ≠ "") =
        ((lines.filter (fun l => l ≠ "")).reverse).take k := by
    unfold read_last_n_lines
    rw [if_pos rfl]
    rw [read_last_n_lines_loop_eq_take k (reverse_readline lines) []
      (by simpa using hk)]
    simp only [List.nil_append, Nat.sub_zero]
    unfold reverse_readline
    rw [← List.filter_reverse]
    apply List.filter_eq_self.mpr
    intro a ha
    have ha1 : a ∈ lines.reverse.filter (fun l => decide (l ≠ "")) :=
      List.mem_of_mem_take ha
    rw [List.mem_filter, List.mem_reverse] at ha1
    have := h a ha1.1 (by simpa using ha1.2)
    simpa using this
  refine ⟨?_, ?_, ?_⟩
  · unfold ConversationManager.get_inputs
    rw [hsel]
  · unfold ConversationManager.get_messages
    rw [hsel]
  · unfold ConversationManager.get_inputs
    rw [hsel, List.length_map, List.length_take, List.length_reverse]

/-- Witness for C10 on a four-line file with one empty line and limit 2. -/
theorem get_inputs_newest_first_witness :
    (1 : Nat) ≤ 2 ∧
    (∀ l ∈ ["r1", "", "r2", "r3"], l ≠ "" → pyStripStr l ≠ "") ∧
    ConversationManager.get_inputs (fun s => s) ["r1", "", "r2", "r3"] 2 =
      ["r3", "r2"] ∧
    (ConversationManager.get_inputs (fun s => s) ["r1", "", "r2", "r3"] 2).length =
      2 := by
  have h := get_inputs_newest_first (fun s => s) ["r1", "", "r2", "r3"] 2
    (by decide) (by decide)
  refine ⟨by decide, by decide, ?_, ?_⟩
  · rw [h.1]
    decide
  · rw [h.2.2]
    decide

end SreWorker
